import Mathlib

/-!
Verification development for the `kvdb-sled` crate (`src/kvdb-sled/src/lib.rs`):
a multi-column `KeyValueDB` facade over the sled embedded engine.

The embedding below translates the Rust source shallowly:

* byte strings (`&[u8]`, `DBValue`, `sled::IVec`) become `Bytes := List Nat`;
* a `sled::Tree` (an ordered byte-key/byte-value map, an external collaborator
  of this crate) is modelled extensionally as a function `Bytes → Option Bytes`;
  its `insert`/`remove`/`get` operations are the usual pointwise updates;
* machine integers are `Nat` with explicit `% 256` where the source performs
  `u8` arithmetic or an `as u8` truncating cast (release semantics);
* fallible engine calls inside the transactional closure are driven by an
  explicit failure oracle `fail : DBOp → Bool`; the engine's contractual
  rollback on a failed transaction is modelled by returning the unchanged
  database together with the error;
* Rust panics (`panic!`, slice index out of bounds) are a distinguished
  `panic` constructor of the result types, never a returned error.
-/

namespace KvdbSled

/-- Byte strings: keys and values (`&[u8]` / `DBValue` in the source). -/
abbrev Bytes : Type := List Nat

/-- Model of `sled::Tree` (external collaborator): an ordered byte-key/value
map, represented extensionally by its lookup function. -/
def Tree : Type := Bytes → Option Bytes

/-- A freshly opened (empty) tree. -/
def Tree.empty : Tree := fun _ => none

/-- `sled::Tree::get` (also the transactional handle's `get`). -/
def Tree.get (t : Tree) (k : Bytes) : Option Bytes := t k

/-- `sled::Tree::insert` (transactional handle's `insert`): point update. -/
def Tree.insert (t : Tree) (k v : Bytes) : Tree :=
  fun k2 => if k2 = k then some v else t k2

/-- `sled::Tree::remove` (transactional handle's `remove`): point removal. -/
def Tree.remove (t : Tree) (k : Bytes) : Tree :=
  fun k2 => if k2 = k then none else t k2

/-- `kvdb::DBOp`: one operation of a transaction. `col = none` addresses the
default column, `col = some c` the logical column `c` (a `u32` in the source). -/
inductive DBOp where
  | Insert (col : Option Nat) (key : Bytes) (value : Bytes)
  | Delete (col : Option Nat) (key : Bytes)
deriving DecidableEq

/-- The column field of an operation. -/
def DBOp.col : DBOp → Option Nat
  | .Insert c _ _ => c
  | .Delete c _ => c

/-- The key field of an operation. -/
def DBOp.key : DBOp → Bytes
  | .Insert _ k _ => k
  | .Delete _ k => k

/-- What the operation leaves at its key: `some value` for an insert,
`none` for a delete. -/
def DBOp.written : DBOp → Option Bytes
  | .Insert _ _ v => some v
  | .Delete _ _ => none

/-- Effect of one operation on its resolved tree: `insert` or `remove`,
exactly as in the per-op body of the transactional closure in `write`. -/
def DBOp.applyTree : DBOp → Tree → Tree
  | .Insert _ k v, t => t.insert k v
  | .Delete _ k, t => t.remove k

/-- `kvdb::DBTransaction`: an ordered list of operations. -/
structure DBTransaction where
  ops : List DBOp

/-- `DatabaseConfig` from the source. `columns` is an `Option<u8>` count of
additional logical columns, `memory_budget_mb` an optional `u64`. -/
structure DatabaseConfig where
  columns : Option Nat
  memory_budget_mb : Option Nat
  path : String

/-- `DB_DEFAULT_MEMORY_BUDGET_MB * MB` scaling from the source. -/
def DatabaseConfig.memory_budget (config : DatabaseConfig) : Nat :=
  (config.memory_budget_mb.getD 128) * (1024 * 1024)

/-- The `Database` struct: the ordered segment list (each sled tree tagged
with the name it was opened under), the path, and the stored `num_columns`
(`u8` in the source). -/
structure Database where
  columns : List (String × Tree)
  path : String
  num_columns : Nat

/-- `Database::to_sled_column`: `col.map_or(0, |c| (c + 1) as u8)`.
The `u32` addition followed by the truncating `as u8` cast is exactly
`(c + 1) % 256` on naturals (`256` divides `2^32`, so the intermediate
`u32` wrap changes nothing). -/
def Database.to_sled_column (col : Option Nat) : Nat :=
  match col with
  | none => 0
  | some c => (c + 1) % 256

/-- `Database::open` (success path; engine open/`open_tree` errors are
environmental and not modelled). `num_columns = config.columns.map_or(0, |c| c + 1)`
with `u8` wrap, then trees `"col0" .. "col{num_columns}"` are opened by the
inclusive range `(0..=num_columns)` — `num_columns + 1` trees in index order.
Named `openDb` because `open` is a Lean keyword. -/
def Database.openDb (config : DatabaseConfig) : Database :=
  let nc : Nat :=
    match config.columns with
    | none => 0
    | some c => (c + 1) % 256
  { columns := (List.range (nc + 1)).map (fun i => ("col" ++ toString i, Tree.empty))
    path := config.path
    num_columns := nc }

/-- Result of `KeyValueDB::get`: either `Ok(maybe_value)` or the
index-out-of-bounds panic from `self.columns[col as usize]`. (Engine read
errors, which the source wraps with `other_io_err`, are environmental and
not modelled.) -/
inductive GetOutcome where
  | ok (value : Option Bytes)
  | panic (msg : String)
deriving DecidableEq

/-- `KeyValueDB::get`: resolve the column, index the segment list
(panicking when out of bounds, as Rust slice indexing does), then a point
lookup on that tree. -/
def Database.get (db : Database) (col : Option Nat) (key : Bytes) : GetOutcome :=
  match db.columns[Database.to_sled_column col]? with
  | some seg => .ok (Tree.get seg.2 key)
  | none => .panic "index out of bounds"

/-- Result of the transactional closure body over the segment array. -/
inductive TxOutcome (α : Type) where
  | ok (a : α)
  | abort
  | panic (msg : String)

/-- One iteration of the per-op loop inside the transactional closure:
resolve the column and update the matched segment array at that index.
Out-of-range indices leave the list unchanged here; `applyOps` below turns
them into the panic the source's fixed-size array indexing produces. -/
def applySeg (op : DBOp) (segs : List (String × Tree)) : List (String × Tree) :=
  match segs[Database.to_sled_column op.col]? with
  | some seg => segs.set (Database.to_sled_column op.col) (seg.1, op.applyTree seg.2)
  | none => segs

/-- The body of the transactional closure in `write`: iterate the
transaction's operations in order; for each, index the segment array
(panic when out of bounds) and apply `insert`/`remove` through the
transactional handle, whose possible failure is driven by the oracle
`fail` and aborts the whole transaction (`?` in the source). -/
def applyOps (fail : DBOp → Bool) : List DBOp → List (String × Tree) →
    TxOutcome (List (String × Tree))
  | [], segs => .ok segs
  | op :: rest, segs =>
    if Database.to_sled_column op.col < segs.length then
      if fail op then .abort
      else applyOps fail rest (applySeg op segs)
    else .panic "index out of bounds"

/-- The failure-free meaning of a transaction on the segment list: the
in-order fold of `applySeg`. -/
def applyOpsPure (ops : List DBOp) (segs : List (String × Tree)) :
    List (String × Tree) :=
  ops.foldl (fun s op => applySeg op s) segs

/-- Result of `KeyValueDB::write`. `ok` carries the committed state; `err`
carries the error message together with the (rolled-back, unchanged) state —
the engine's atomic-transaction contract; `panic` is a process abort. -/
inductive WriteOutcome where
  | ok (db : Database)
  | err (msg : String) (db : Database)
  | panic (msg : String)

/-- `KeyValueDB::write`. The source matches `&self.columns[..]` against the
one-element pattern `[c1]` and the nine-element pattern `[c1, ..., c9]`;
both arms run the identical per-op loop over the matched segment array, so
the model branches on the segment count and runs the one loop. Any other
count hits `panic!("only up to 9 columns are supported ATM")`. A failed
transaction is rolled back by the engine and reported as
`other_io_err("transaction has failed")`. -/
def Database.write (db : Database) (tr : DBTransaction) (fail : DBOp → Bool) :
    WriteOutcome :=
  if db.columns.length = 1 ∨ db.columns.length = 9 then
    match applyOps fail tr.ops db.columns with
    | .ok segs => .ok { db with columns := segs }
    | .abort => .err "transaction has failed" db
    | .panic m => .panic m
  else .panic "only up to 9 columns are supported ATM"

/-- Result of `KeyValueDB::write_buffered`: it returns no value, so the
observable outcome is the post-state plus whether the failure warning was
logged — or the propagated panic. -/
inductive BufferedOutcome where
  | done (db : Database) (warned : Bool)
  | panic (msg : String)

/-- `KeyValueDB::write_buffered`: calls `write` and, when it returns an
error, only logs a warning. Panics propagate. -/
def Database.write_buffered (db : Database) (tr : DBTransaction)
    (fail : DBOp → Bool) : BufferedOutcome :=
  match db.write tr fail with
  | .ok d => .done d false
  | .err _ d => .done d true
  | .panic m => .panic m

/-- Committing a transaction with no engine failure and reading back the
resulting state (on error the state is the rolled-back one; a panic leaves
no state, the original stands in). -/
def afterWrite (db : Database) (tr : DBTransaction) : Database :=
  match db.write tr (fun _ => false) with
  | .ok d => d
  | .err _ d => d
  | .panic _ => db

/-- Output stream of a `sled::Iter` cursor (`iter` / `scan_prefix`): a
finite sequence of per-item results, each an entry or an engine-reported
per-item error. -/
abbrev SledIter : Type := List (Except Unit (Bytes × Bytes))

/-- `DatabaseIter::next`:
`self.inner.next().and_then(|result| { let (k, v) = result.ok()?; Some((k, v)) })`.
An exhausted cursor gives `none`; an `Ok` item yields the entry; an `Err`
item makes `result.ok()?` return `None`, i.e. the iterator signals
end-of-iteration (the error itself is dropped). -/
def DatabaseIter.next : SledIter → Option ((Bytes × Bytes) × SledIter)
  | [] => none
  | .ok kv :: rest => some (kv, rest)
  | .error _ :: _ => none

/-- The full sequence an iterator consumer (a `for` loop, `collect`,
`Iterator::next` until `None`) obtains from `DatabaseIter`: entries up to
the first error item or the end of the cursor. -/
def DatabaseIter.collect : SledIter → List (Bytes × Bytes)
  | [] => []
  | .ok kv :: rest => kv :: DatabaseIter.collect rest
  | .error _ :: _ => []

/-- `KeyValueDB::iter_from_prefix` (source name `iter_from_prefix`),
modelled over the engine cursor: the source resolves the column, asks the
engine for `scan_prefix(prefix)` on that segment, and wraps the cursor in
`DatabaseIter`; `scan` is the engine's cursor oracle (segment index and
prefix to cursor stream), and the result is the sequence the wrapped
iterator produces. -/
def Database.iterFromPrefix (db : Database) (scan : Nat → Bytes → SledIter)
    (col : Option Nat) (pfx : Bytes) : List (Bytes × Bytes) :=
  DatabaseIter.collect (scan (Database.to_sled_column col) pfx)

/-- `KeyValueDB::get_by_prefix` (source name `get_by_prefix`):
`self.iter_from_prefix(col, prefix).next().map(|(_, v)| v)` — one `next()`
call on the same wrapped cursor, keeping the value. -/
def Database.getByPrefix (db : Database) (scan : Nat → Bytes → SledIter)
    (col : Option Nat) (pfx : Bytes) : Option Bytes :=
  (DatabaseIter.next (scan (Database.to_sled_column col) pfx)).map
    (fun x => x.1.2)

/-! ### Helper lemmas about the embedded operations -/

/-- Two operations whose resolved (segment index, key) targets differ. -/
def DistinctTarget (o1 o2 : DBOp) : Prop :=
  (Database.to_sled_column o1.col, o1.key) ≠ (Database.to_sled_column o2.col, o2.key)

instance : DecidableRel DistinctTarget := fun o1 o2 => by
  unfold DistinctTarget; infer_instance

lemma distinctTarget_symm : Symmetric DistinctTarget :=
  fun _ _ h e => h e.symm

lemma applyTree_apply (op : DBOp) (t : Tree) (k : Bytes) :
    op.applyTree t k = if k = op.key then op.written else t k := by
  cases op <;> rfl

lemma applyTree_comm (o1 o2 : DBOp) (h : o1.key ≠ o2.key) (t : Tree) :
    o2.applyTree (o1.applyTree t) = o1.applyTree (o2.applyTree t) := by
  funext k
  rw [applyTree_apply, applyTree_apply, applyTree_apply, applyTree_apply]
  by_cases h1 : k = o1.key
  · have h2 : ¬k = o2.key := fun h2 => h (h1.symm.trans h2)
    simp only [if_pos h1, if_neg h2]
  · by_cases h2 : k = o2.key
    · simp only [if_pos h2, if_neg h1]
    · simp only [if_neg h1, if_neg h2]

lemma applySeg_length (op : DBOp) (segs : List (String × Tree)) :
    (applySeg op segs).length = segs.length := by
  unfold applySeg
  cases h : segs[Database.to_sled_column op.col]? <;> simp

lemma applySeg_getElem? (op : DBOp) (segs : List (String × Tree)) (n : Nat) :
    (applySeg op segs)[n]? = (segs[n]?).map
      (fun s => if n = Database.to_sled_column op.col
        then (s.1, op.applyTree s.2) else s) := by
  unfold applySeg
  cases h : segs[Database.to_sled_column op.col]? with
  | none =>
    by_cases hn : n = Database.to_sled_column op.col
    · subst hn; simp [h]
    · cases segs[n]? <;> simp [hn]
  | some seg =>
    have hlt : Database.to_sled_column op.col < segs.length := by
      by_contra hc
      rw [List.getElem?_eq_none_iff.mpr (by omega)] at h
      exact Option.noConfusion h
    by_cases hn : n = Database.to_sled_column op.col
    · subst hn
      rw [List.getElem?_set_self hlt, h]
      simp
    · rw [List.getElem?_set_ne (fun e => hn e.symm)]
      cases segs[n]? <;> simp [hn]

lemma applySeg_comm (o1 o2 : DBOp) (segs : List (String × Tree))
    (hne : DistinctTarget o1 o2) :
    applySeg o2 (applySeg o1 segs) = applySeg o1 (applySeg o2 segs) := by
  apply List.ext_getElem?
  intro n
  simp only [applySeg_getElem?, Option.map_map]
  cases segs[n]? with
  | none => rfl
  | some s =>
    simp only [Option.map_some', Function.comp_apply]
    by_cases h1 : n = Database.to_sled_column o1.col
    · by_cases h2 : n = Database.to_sled_column o2.col
      · have hc12 : Database.to_sled_column o1.col = Database.to_sled_column o2.col :=
          h1.symm.trans h2
        have hkey : o1.key ≠ o2.key := fun hk => hne (by rw [hc12, hk])
        simp only [if_pos h1, if_pos h2]
        exact congrArg (fun t => some (s.1, t)) (applyTree_comm o1 o2 hkey s.2)
      · simp only [if_pos h1, if_neg h2]
    · by_cases h2 : n = Database.to_sled_column o2.col
      · simp only [if_neg h1, if_pos h2]
      · simp only [if_neg h1, if_neg h2]

lemma applyOpsPure_nil (segs : List (String × Tree)) :
    applyOpsPure [] segs = segs := rfl

lemma applyOpsPure_cons (op : DBOp) (ops : List DBOp) (segs : List (String × Tree)) :
    applyOpsPure (op :: ops) segs = applyOpsPure ops (applySeg op segs) := rfl

lemma applyOpsPure_length (ops : List DBOp) (segs : List (String × Tree)) :
    (applyOpsPure ops segs).length = segs.length := by
  induction ops generalizing segs with
  | nil => rfl
  | cons op rest ih =>
    rw [applyOpsPure_cons, ih, applySeg_length]

lemma applyOps_ok (fail : DBOp → Bool) (ops : List DBOp)
    (segs : List (String × Tree))
    (hr : ∀ op ∈ ops, Database.to_sled_column op.col < segs.length)
    (hf : ∀ op ∈ ops, fail op = false) :
    applyOps fail ops segs = .ok (applyOpsPure ops segs) := by
  induction ops generalizing segs with
  | nil => rfl
  | cons op rest ih =>
    unfold applyOps
    rw [if_pos (hr op (by simp)), hf op (by simp)]
    simp only [Bool.false_eq_true, if_false, applyOpsPure_cons]
    exact ih (applySeg op segs)
      (fun o ho => applySeg_length op segs ▸ hr o (by simp [ho]))
      (fun o ho => hf o (by simp [ho]))

lemma applyOps_abort (fail : DBOp → Bool) (ops : List DBOp)
    (segs : List (String × Tree))
    (hr : ∀ op ∈ ops, Database.to_sled_column op.col < segs.length)
    (hex : ∃ op ∈ ops, fail op = true) :
    applyOps fail ops segs = .abort := by
  induction ops generalizing segs with
  | nil => obtain ⟨op, hop, _⟩ := hex; exact absurd hop (List.not_mem_nil op)
  | cons op rest ih =>
    unfold applyOps
    rw [if_pos (hr op (by simp))]
    by_cases hf : fail op
    · rw [hf]; rfl
    · rw [Bool.not_eq_true] at hf
      rw [hf]
      simp only [Bool.false_eq_true, if_false]
      obtain ⟨o, ho, hfo⟩ := hex
      rcases List.mem_cons.mp ho with h | h
      · exact absurd (h ▸ hfo) (by simp [hf])
      · exact ih (applySeg op segs)
          (fun o2 ho2 => applySeg_length op segs ▸ hr o2 (by simp [ho2]))
          ⟨o, h, hfo⟩

lemma applyOpsPure_perm {ops1 ops2 : List DBOp} (p : ops1.Perm ops2) :
    ops1.Pairwise DistinctTarget →
    ∀ segs, applyOpsPure ops1 segs = applyOpsPure ops2 segs := by
  induction p with
  | nil => intro _ _; rfl
  | cons x p ih =>
    intro hp segs
    rw [applyOpsPure_cons, applyOpsPure_cons]
    exact ih (List.pairwise_cons.mp hp).2 (applySeg x segs)
  | swap x y l =>
    intro hp segs
    have hyx : DistinctTarget y x := (List.pairwise_cons.mp hp).1 x (by simp)
    rw [applyOpsPure_cons, applyOpsPure_cons, applyOpsPure_cons, applyOpsPure_cons]
    rw [applySeg_comm y x segs hyx]
  | trans p1 p2 ih1 ih2 =>
    intro hp segs
    have hp2 := (p1.pairwise_iff (fun h => distinctTarget_symm h)).mp hp
    exact (ih1 hp segs).trans (ih2 hp2 segs)

lemma write_of_arity (db : Database) (tr : DBTransaction) (fail : DBOp → Bool)
    (h : db.columns.length = 1 ∨ db.columns.length = 9) :
    db.write tr fail =
      (match applyOps fail tr.ops db.columns with
        | .ok segs => .ok { db with columns := segs }
        | .abort => .err "transaction has failed" db
        | .panic m => .panic m) := by
  unfold Database.write
  rw [if_pos h]

lemma write_nofail (db : Database) (tr : DBTransaction)
    (harity : db.columns.length = 1 ∨ db.columns.length = 9)
    (hr : ∀ op ∈ tr.ops, Database.to_sled_column op.col < db.columns.length) :
    db.write tr (fun _ => false) =
      .ok { db with columns := applyOpsPure tr.ops db.columns } := by
  rw [write_of_arity db tr _ harity,
    applyOps_ok _ tr.ops db.columns hr (fun _ _ => rfl)]

lemma afterWrite_nofail (db : Database) (tr : DBTransaction)
    (harity : db.columns.length = 1 ∨ db.columns.length = 9)
    (hr : ∀ op ∈ tr.ops, Database.to_sled_column op.col < db.columns.length) :
    afterWrite db tr = { db with columns := applyOpsPure tr.ops db.columns } := by
  unfold afterWrite
  rw [write_nofail db tr harity hr]

/-! ### Claim theorems -/

/-- C1, counterexample: the claim says `open` opens exactly `columns + 1`
segments for a declared logical column count `columns`. The code computes
`num_columns = columns.map_or(0, |c| c + 1)` and then opens the inclusive
range `0..=num_columns`: declaring `columns = Some(0)` opens 2 segments,
not `0 + 1 = 1`. -/
theorem c1_open_counterexample :
    (Database.openDb { columns := some 0, memory_budget_mb := none, path := "p" }).columns.length = 2 ∧
    (2 : Nat) ≠ 0 + 1 :=
  ⟨rfl, by decide⟩

/-- C1, amended: `open` opens exactly `num_columns + 1` segments where
`num_columns` is `0` when no column count is declared and `(c + 1) % 256`
when `c` is declared (so a declared count `c < 255` yields `c + 2`
segments), and the segment at index `i` is the tree opened under the name
`"col{i}"`, preserving index order. -/
theorem c1_open_segments_amended (config : DatabaseConfig) :
    (Database.openDb config).columns.length =
      (match config.columns with
        | none => 0
        | some c => (c + 1) % 256) + 1 ∧
    ∀ i, i < (Database.openDb config).columns.length →
      ((Database.openDb config).columns[i]?).map Prod.fst =
        some ("col" ++ toString i) := by
  constructor
  · unfold Database.openDb
    simp
  · intro i hi
    unfold Database.openDb at hi ⊢
    simp only [List.length_map, List.length_range] at hi
    rw [List.getElem?_map, List.getElem?_range hi]
    rfl

/-- Witness for C1 amended at a concrete configuration: with a declared
count of 0 the segment at index 1 exists and is named `"col1"`. -/
theorem c1_open_segments_amended_witness :
    ((Database.openDb { columns := some 0, memory_budget_mb := none, path := "p" }).columns[1]?).map
      Prod.fst = some ("col" ++ toString 1) :=
  (c1_open_segments_amended { columns := some 0, memory_budget_mb := none, path := "p" }).2
    1 (by decide)

/-- C2: the claim (and the spec's own §9 correction) says `write` on a
database whose segment count matches no supported fixed arity returns a
defined `UnsupportedColumnCount` error and never aborts the process. The
code instead hits `panic!("only up to 9 columns are supported ATM")`: at
the failing input below (a database opened with `columns = Some(0)`, hence
2 segments) `write` aborts rather than returning any error value. -/
theorem c2_unsupported_arity_panics :
    (Database.openDb { columns := some 0, memory_budget_mb := none, path := "p" }).write
      ⟨[DBOp.Insert none [0] [1]]⟩ (fun _ => false) =
      .panic "only up to 9 columns are supported ATM" :=
  rfl

/-- C3, counterexample: the claim says an entry whose underlying read
reports a per-item error is skipped and iteration continues with the
remaining entries. On the cursor stream `[Err, Ok(([0],[1]))]` the
iterator yields nothing at all: the entry after the error is never
delivered, so iteration does not continue past a per-item error. -/
theorem c3_iteration_counterexample :
    DatabaseIter.collect [Except.error (), Except.ok (([0], [1]) : Bytes × Bytes)] = [] ∧
    (([0], [1]) : Bytes × Bytes) ∉
      DatabaseIter.collect [Except.error (), Except.ok (([0], [1]) : Bytes × Bytes)] := by
  decide

/-- C3, amended: a per-item error silently ends the iteration: the entries
before the first error item are delivered, the error itself is never
surfaced (the item type carries no error), and everything at or after the
error item is dropped; an error-free stream is delivered in full. -/
theorem c3_iteration_truncates_amended (pre : List (Bytes × Bytes)) (e : Unit)
    (post : SledIter) :
    DatabaseIter.collect (pre.map Except.ok ++ Except.error e :: post) = pre ∧
    DatabaseIter.collect (pre.map Except.ok) = pre := by
  induction pre with
  | nil => exact ⟨rfl, rfl⟩
  | cons kv rest ih =>
    refine ⟨?_, ?_⟩
    · simpa [DatabaseIter.collect] using ih.1
    · simpa [DatabaseIter.collect] using ih.2

/-- C4: round-trip — on a database with a supported segment count whose
resolved column is in range, committing `write([Insert{c,k,v}])` (with no
engine failure) and then calling `get(c,k)` returns `v`. -/
theorem c4_roundtrip (db : Database) (c : Option Nat) (k v : Bytes)
    (harity : db.columns.length = 1 ∨ db.columns.length = 9)
    (hc : Database.to_sled_column c < db.columns.length) :
    (afterWrite db ⟨[DBOp.Insert c k v]⟩).get c k = .ok (some v) := by
  have hr : ∀ op ∈ ({ ops := [DBOp.Insert c k v] } : DBTransaction).ops,
      Database.to_sled_column op.col < db.columns.length := by
    intro op hop
    rw [List.mem_singleton] at hop
    subst hop
    exact hc
  rw [afterWrite_nofail db _ harity hr]
  unfold Database.get
  simp only [applyOpsPure_cons, applyOpsPure_nil, applySeg_getElem?,
    List.getElem?_eq_getElem hc]
  simp [DBOp.col, DBOp.applyTree, Tree.insert, Tree.get]

/-- Witness for C4 at the spec's end-to-end scenario: a database opened
with no declared columns (count 0, a single default segment),
`write([Insert{none,"x","1"}])` then `get(none,"x")` returns `"1"`. -/
theorem c4_roundtrip_witness :
    (afterWrite (Database.openDb { columns := none, memory_budget_mb := none, path := "p" })
        ⟨[DBOp.Insert none [120] [49]]⟩).get none [120] = .ok (some [49]) :=
  c4_roundtrip (Database.openDb { columns := none, memory_budget_mb := none, path := "p" })
    none [120] [49] (Or.inl (by decide)) (by decide)

/-- C5, counterexample: the claim says column resolution returns
`logicalColumn + 1` for a given logical column and that an out-of-range
logical column is surfaced as a fatal index-out-of-bounds, never as a
silent wraparound onto a valid segment. The truncating `as u8` cast makes
`to_sled_column(Some(255)) = 0 ≠ 255 + 1`, and on a one-segment database
`get(Some(255), k)` silently succeeds against the default segment. -/
theorem c5_resolution_counterexample :
    Database.to_sled_column (some 255) = 0 ∧
    (0 : Nat) ≠ 255 + 1 ∧
    (Database.openDb { columns := none, memory_budget_mb := none, path := "p" }).get
      (some 255) [] = .ok none :=
  ⟨rfl, by decide, rfl⟩

/-- C5, amended: resolution returns `0` when no column is given and
`(logicalColumn + 1) % 256` otherwise — equal to `logicalColumn + 1`
whenever `logicalColumn < 255`; it is pure and total; when the resolved
index is out of range of the segment list, its use in `get` is a fatal
index-out-of-bounds; but logical columns `≥ 255` wrap modulo 256 and may
silently alias a valid segment (255 aliases the default segment 0). -/
theorem c5_resolution_amended :
    Database.to_sled_column none = 0 ∧
    (∀ c, Database.to_sled_column (some c) = (c + 1) % 256) ∧
    (∀ c, c < 255 → Database.to_sled_column (some c) = c + 1) ∧
    (∀ (db : Database) (col : Option Nat) (k : Bytes),
      db.columns.length ≤ Database.to_sled_column col →
      db.get col k = .panic "index out of bounds") := by
  refine ⟨rfl, fun c => rfl, fun c hc => ?_, fun db col k h => ?_⟩
  · unfold Database.to_sled_column
    exact Nat.mod_eq_of_lt (by omega)
  · unfold Database.get
    rw [List.getElem?_eq_none_iff.mpr h]

/-- Witness for C5 amended: `to_sled_column(Some(3)) = 4`, and on a
one-segment database `get(Some(100), [])` hits the fatal
index-out-of-bounds. -/
theorem c5_resolution_amended_witness :
    Database.to_sled_column (some 3) = 3 + 1 ∧
    (Database.openDb { columns := none, memory_budget_mb := none, path := "p" }).get
      (some 100) [] = .panic "index out of bounds" :=
  ⟨c5_resolution_amended.2.2.1 3 (by decide),
   c5_resolution_amended.2.2.2
     (Database.openDb { columns := none, memory_budget_mb := none, path := "p" })
     (some 100) [] (by decide)⟩

/-- C6: atomicity on failure — on a database with a supported segment
count and a transaction whose resolved columns are all in range, if any
per-operation apply fails inside the atomic scope then `write` returns the
generic `"transaction has failed"` error with the committed state
unchanged (no operation is visible), and if no operation fails the
transaction commits and is visible in full. -/
theorem c6_atomicity (db : Database) (tr : DBTransaction) (fail : DBOp → Bool)
    (harity : db.columns.length = 1 ∨ db.columns.length = 9)
    (hr : ∀ op ∈ tr.ops, Database.to_sled_column op.col < db.columns.length) :
    ((∃ op ∈ tr.ops, fail op = true) →
      db.write tr fail = .err "transaction has failed" db) ∧
    ((∀ op ∈ tr.ops, fail op = false) →
      db.write tr fail = .ok { db with columns := applyOpsPure tr.ops db.columns }) := by
  constructor
  · intro hex
    rw [write_of_arity db tr fail harity,
      applyOps_abort fail tr.ops db.columns hr hex]
  · intro hf
    rw [write_of_arity db tr fail harity,
      applyOps_ok fail tr.ops db.columns hr hf]

/-- Witness for C6: with an always-failing engine, a one-operation
transaction on a fresh one-segment database is rejected with the generic
error and the returned state is the original database. -/
theorem c6_atomicity_witness :
    (Database.openDb { columns := none, memory_budget_mb := none, path := "p" }).write
      ⟨[DBOp.Insert none [1] [2]]⟩ (fun _ => true) =
      .err "transaction has failed"
        (Database.openDb { columns := none, memory_budget_mb := none, path := "p" }) :=
  (c6_atomicity (Database.openDb { columns := none, memory_budget_mb := none, path := "p" })
      ⟨[DBOp.Insert none [1] [2]]⟩ (fun _ => true) (Or.inl (by decide)) (by decide)).1
    ⟨DBOp.Insert none [1] [2], by simp, rfl⟩

/-- C7: `write_buffered` performs the same state change as `write` on the
same transaction, and a failed apply is never propagated to the caller —
when `write` would succeed with state `d`, `write_buffered` ends with
state `d` and no warning; when `write` would return an error with
(rolled-back) state `d`, `write_buffered` ends with state `d` and only the
logged warning. -/
theorem c7_write_buffered (db : Database) (tr : DBTransaction) (fail : DBOp → Bool) :
    (∀ d, db.write tr fail = .ok d →
      db.write_buffered tr fail = .done d false) ∧
    (∀ m d, db.write tr fail = .err m d →
      db.write_buffered tr fail = .done d true) := by
  constructor
  · intro d h
    unfold Database.write_buffered
    rw [h]
  · intro m d h
    unfold Database.write_buffered
    rw [h]

/-- Witness for C7: an always-failing apply on a fresh one-segment
database makes `write_buffered` finish with the unchanged state and only
the warning flag — no error reaches the caller. -/
theorem c7_write_buffered_witness :
    (Database.openDb { columns := none, memory_budget_mb := none, path := "p" }).write_buffered
      ⟨[DBOp.Insert none [1] [2]]⟩ (fun _ => true) =
      .done (Database.openDb { columns := none, memory_budget_mb := none, path := "p" }) true :=
  (c7_write_buffered (Database.openDb { columns := none, memory_budget_mb := none, path := "p" })
      ⟨[DBOp.Insert none [1] [2]]⟩ (fun _ => true)).2 "transaction has failed"
    (Database.openDb { columns := none, memory_budget_mb := none, path := "p" }) rfl

/-- C8, counterexample: the claim says every permutation of a
transaction's operations commits to the same state. The transactions
`[Insert{none,[0],[1]}, Delete{none,[0]}]` and its permutation
`[Delete{none,[0]}, Insert{none,[0],[1]}]` commit observably different
states on a fresh one-segment database: `get(none,[0])` returns `none`
after the first and `[1]` after the second. -/
theorem c8_order_counterexample :
    List.Perm [DBOp.Delete none [0], DBOp.Insert none [0] [1]]
      [DBOp.Insert none [0] [1], DBOp.Delete none [0]] ∧
    (afterWrite (Database.openDb { columns := none, memory_budget_mb := none, path := "p" })
        ⟨[DBOp.Insert none [0] [1], DBOp.Delete none [0]]⟩).get none [0] ≠
      (afterWrite (Database.openDb { columns := none, memory_budget_mb := none, path := "p" })
        ⟨[DBOp.Delete none [0], DBOp.Insert none [0] [1]]⟩).get none [0] := by
  decide

/-- C8, amended: order-independence holds for transactions whose
operations have pairwise-distinct resolved (segment index, key) targets:
on a database with a supported segment count and all columns in range,
committing any permutation of such a transaction (with no engine failure)
yields the same `write` outcome, state included. -/
theorem c8_order_amended (db : Database) (tr tr2 : DBTransaction)
    (harity : db.columns.length = 1 ∨ db.columns.length = 9)
    (hr : ∀ op ∈ tr.ops, Database.to_sled_column op.col < db.columns.length)
    (hperm : tr.ops.Perm tr2.ops)
    (hdist : tr.ops.Pairwise DistinctTarget) :
    db.write tr (fun _ => false) = db.write tr2 (fun _ => false) := by
  have hr2 : ∀ op ∈ tr2.ops, Database.to_sled_column op.col < db.columns.length :=
    fun op hop => hr op (hperm.mem_iff.mpr hop)
  rw [write_nofail db tr harity hr, write_nofail db tr2 harity hr2,
    applyOpsPure_perm hperm hdist db.columns]

/-- Witness for C8 amended: two inserts to distinct keys commute on a
fresh one-segment database. -/
theorem c8_order_amended_witness :
    (Database.openDb { columns := none, memory_budget_mb := none, path := "p" }).write
      ⟨[DBOp.Insert none [0] [1], DBOp.Insert none [2] [3]]⟩ (fun _ => false) =
      (Database.openDb { columns := none, memory_budget_mb := none, path := "p" }).write
        ⟨[DBOp.Insert none [2] [3], DBOp.Insert none [0] [1]]⟩ (fun _ => false) :=
  c8_order_amended (Database.openDb { columns := none, memory_budget_mb := none, path := "p" })
    ⟨[DBOp.Insert none [0] [1], DBOp.Insert none [2] [3]]⟩
    ⟨[DBOp.Insert none [2] [3], DBOp.Insert none [0] [1]]⟩
    (Or.inl (by decide)) (by decide) (by decide) (by decide)

/-- C9: `get_by_prefix` returns exactly the value of the first entry the
wrapped prefix scan over the resolved segment produces, and `none` when
that scan is empty — for every engine cursor the scan may return. -/
theorem c9_getByPrefix_first (db : Database) (scan : Nat → Bytes → SledIter)
    (col : Option Nat) (pfx : Bytes) :
    db.getByPrefix scan col pfx =
      (db.iterFromPrefix scan col pfx).head?.map Prod.snd ∧
    (db.iterFromPrefix scan col pfx = [] → db.getByPrefix scan col pfx = none) := by
  have h1 : db.getByPrefix scan col pfx =
      (db.iterFromPrefix scan col pfx).head?.map Prod.snd := by
    unfold Database.getByPrefix Database.iterFromPrefix
    cases scan (Database.to_sled_column col) pfx with
    | nil => rfl
    | cons r rest =>
      cases r with
      | ok kv => rfl
      | error e => rfl
  refine ⟨h1, fun he => ?_⟩
  rw [h1, he]
  rfl

/-- Witness for C9: on an empty prefix scan, `get_by_prefix` returns
`none`. -/
theorem c9_getByPrefix_first_witness :
    (Database.openDb { columns := none, memory_budget_mb := none, path := "p" }).getByPrefix
      (fun _ _ => []) none [] = none :=
  (c9_getByPrefix_first
    (Database.openDb { columns := none, memory_budget_mb := none, path := "p" })
    (fun _ _ => []) none []).2 rfl

/-- C10: deletion — on a database with a supported segment count whose
resolved column is in range, after committing `[Insert{c,k,v}]` and then
`[Delete{c,k}]` (each with no engine failure), `get(c,k)` returns `none`. -/
theorem c10_delete (db : Database) (c : Option Nat) (k v : Bytes)
    (harity : db.columns.length = 1 ∨ db.columns.length = 9)
    (hc : Database.to_sled_column c < db.columns.length) :
    (afterWrite (afterWrite db ⟨[DBOp.Insert c k v]⟩) ⟨[DBOp.Delete c k]⟩).get c k =
      .ok none := by
  have hr1 : ∀ op ∈ ({ ops := [DBOp.Insert c k v] } : DBTransaction).ops,
      Database.to_sled_column op.col < db.columns.length := by
    intro op hop
    rw [List.mem_singleton] at hop
    subst hop
    exact hc
  rw [afterWrite_nofail db _ harity hr1]
  have hlen : (applyOpsPure [DBOp.Insert c k v] db.columns).length = db.columns.length :=
    applyOpsPure_length _ _
  have harity2 : (applyOpsPure [DBOp.Insert c k v] db.columns).length = 1 ∨
      (applyOpsPure [DBOp.Insert c k v] db.columns).length = 9 := by
    rw [hlen]; exact harity
  have hc2 : Database.to_sled_column c < (applyOpsPure [DBOp.Insert c k v] db.columns).length := by
    rw [hlen]; exact hc
  have hr2 : ∀ op ∈ ({ ops := [DBOp.Delete c k] } : DBTransaction).ops,
      Database.to_sled_column op.col <
        (applyOpsPure [DBOp.Insert c k v] db.columns).length := by
    intro op hop
    rw [List.mem_singleton] at hop
    subst hop
    exact hc2
  rw [afterWrite_nofail _ _ harity2 hr2]
  unfold Database.get
  simp only [applyOpsPure_cons, applyOpsPure_nil, applySeg_getElem?,
    List.getElem?_eq_getElem hc]
  simp [DBOp.col, DBOp.applyTree, Tree.insert, Tree.remove, Tree.get]

/-- Witness for C10 at the spec's end-to-end scenario: on a fresh
one-segment database, insert `"x" ↦ "1"` then delete `"x"`; `get` returns
`none`. -/
theorem c10_delete_witness :
    (afterWrite
      (afterWrite (Database.openDb { columns := none, memory_budget_mb := none, path := "p" })
        ⟨[DBOp.Insert none [120] [49]]⟩)
      ⟨[DBOp.Delete none [120]]⟩).get none [120] = .ok none :=
  c10_delete (Database.openDb { columns := none, memory_budget_mb := none, path := "p" })
    none [120] [49] (Or.inl (by decide)) (by decide)

end KvdbSled
